import Mathlib

/-!
Verification of the acquisition workflow of the Mindsprouts application
(src/App.js), shallowly embedded in Lean.

The embedding follows the source file:

* `destFileName` models the destination file-name derivation at
  src/App.js lines 52-54: the title is passed through
  `replace(/[^a-zA-Z0-9]/g, "_")`, then `trim()`, then the `.apk`
  extension is appended.  The directory component of the path is not
  modelled; the claims concern only the file name.
* `requestPermission` models the permission gate at lines 29-38: on a
  non-Android platform it returns true; on Android below version 29 it
  invokes the system permission request (which may resolve to a grant, a
  denial, or reject) and compares the result with the granted constant;
  otherwise it returns true.  The second component of the result records
  whether the system request was invoked (a prompt may be shown).
* `installGame` models the workflow at lines 41-102 as the chronological
  list of observable events (alerts, component-state updates, external
  calls, timer operations) that one run produces, given an environment
  `Env` fixing the outcome of every external call.
* Polling (lines 77-92): the repeating check fires every 2 seconds and
  the 20-second deadline clears it, so the checks numbered 1 to 9 (at 2
  to 18 seconds) can run; the deadline `clearInterval` call is the final
  event of every polling session, because the deadline timer itself is
  never cancelled anywhere in the source.
* `AppState` and `Step` model the component state `downloadingGame`
  (line 20, a single optional item identifier) and the button guard
  `disabled={downloadingGame === item.id}` (line 116), together with the
  suspension points of `installGame`, as a labelled transition system
  over interleaved runs.
-/

namespace Mindsprouts

/-- Character class of the regex at src/App.js line 53: ASCII letters and
digits. -/
def isAsciiAlnum (c : Char) : Bool :=
  (65 ≤ c.toNat && c.toNat ≤ 90) || (97 ≤ c.toNat && c.toNat ≤ 122) ||
    (48 ≤ c.toNat && c.toNat ≤ 57)

/-- Action of `replace(/[^a-zA-Z0-9]/g, "_")` on a single character:
characters outside the class are replaced by an underscore. -/
def replaceNonAlnum (c : Char) : Char :=
  if isAsciiAlnum c then c else '_'

/-- JavaScript `trim()`: remove leading and trailing whitespace. -/
def jsTrim (l : List Char) : List Char :=
  ((l.dropWhile Char.isWhitespace).reverse.dropWhile Char.isWhitespace).reverse

/-- Destination file name derived from the display title,
src/App.js lines 52-54. -/
def destFileName (title : String) : String :=
  String.mk (jsTrim (title.data.map replaceNonAlnum)) ++ ".apk"

/-- Outcome of the system permission request invoked at
src/App.js lines 32-34.  The request is an external call: it can resolve
with one of the platform result strings, or reject (`raise`). -/
inductive PermResult where
  | granted
  | denied
  | neverAskAgain
  | raise
  deriving DecidableEq

/-- A catalog item as consumed by `installGame` (src/games.js shape). -/
structure Game where
  id : Nat
  title : String
  apkUrl : String
  packageName : String

/-- Environment of one run: the outcome of every external call the
workflow can make.  `check k` is the result of the k-th install query
(`isAppInstalled`), counted from 1. -/
structure Env where
  osAndroid : Bool
  osVersion : Nat
  permRequest : PermResult
  download : Except Unit Nat
  handoff : Except Unit Unit
  check : Nat → Except Unit Bool
  launch : Except Unit Unit

/-- The permission gate, src/App.js lines 29-38.  First component: the
result (`Except.error` when the underlying system request rejects, which
the source does not guard against).  Second component: whether the
system request was invoked. -/
def requestPermission (env : Env) : Except Unit Bool × Bool :=
  if env.osAndroid = false then (Except.ok true, false)
  else if env.osVersion < 29 then
    match env.permRequest with
    | PermResult.raise => (Except.error (), true)
    | r => (Except.ok (decide (r = PermResult.granted)), true)
  else (Except.ok true, false)

/-- Observable events of one `installGame` run, in chronological order. -/
inductive Ev where
  | callPermission
  | alertPermissionDenied
  | setBusy (id : Nat)
  | alertDownloading
  | callDownload
  | callHandoff
  | clearBusy
  | callCheck (k : Nat)
  | logCatch (k : Nat)
  | clearIntervalEv
  | deadlineClear
  | alertInstalled
  | callLaunch
  | alertDownloadFailed
  | logError
  | alertInstallError
  deriving DecidableEq

/-- Events following a successful install detection inside one tick,
src/App.js line 84: the auto-launch call; a rejection is caught by the
catch of the tick (line 86) and logged. -/
def launchTail (env : Env) (k : Nat) : List Ev :=
  match env.launch with
  | Except.ok _ => []
  | Except.error _ => [Ev.logCatch k]

/-- Body of the k-th polling tick after the `isAppInstalled` query,
src/App.js lines 78-88.  `rest` is the remainder of the polling session
when this tick does not detect the install. -/
def tickTail (env : Env) (k : Nat) (rest : List Ev) : List Ev :=
  match env.check k with
  | Except.error _ => Ev.logCatch k :: rest
  | Except.ok false => rest
  | Except.ok true =>
    Ev.clearIntervalEv :: Ev.alertInstalled :: Ev.callLaunch :: launchTail env k

/-- The polling ticks, src/App.js lines 77-89.  `fuel` is the number of
tick opportunities remaining before the 20-second deadline; `k` is the
number of the current tick. -/
def pollTicks (env : Env) : Nat → Nat → List Ev
  | 0, _ => []
  | fuel + 1, k => Ev.callCheck k :: tickTail env k (pollTicks env fuel (k + 1))

/-- One whole polling session, src/App.js lines 77-92: at most nine ticks
(at 2, 4, ..., 18 seconds) followed by the deadline firing at 20 seconds,
which issues the final `clearInterval` call (line 92).  The deadline timer
is never cancelled in the source, so it fires in every session. -/
def pollTrace (env : Env) : List Ev :=
  pollTicks env 9 1 ++ [Ev.deadlineClear]

/-- One run of `installGame`, src/App.js lines 41-102, as its list of
observable events.  The destination of the download call is
`destFileName g.title` (lines 52-54).  The three `Except.error` branches
are the outer catch (lines 97-101): log, clear the busy indicator, alert. -/
def installGame (env : Env) (g : Game) : List Ev :=
  Ev.callPermission ::
    match (requestPermission env).1 with
    | Except.error _ => [Ev.logError, Ev.clearBusy, Ev.alertInstallError]
    | Except.ok false => [Ev.alertPermissionDenied]
    | Except.ok true =>
      Ev.setBusy g.id :: Ev.alertDownloading :: Ev.callDownload ::
        match env.download with
        | Except.error _ => [Ev.logError, Ev.clearBusy, Ev.alertInstallError]
        | Except.ok status =>
          if status = 200 then
            Ev.callHandoff ::
              match env.handoff with
              | Except.error _ => [Ev.logError, Ev.clearBusy, Ev.alertInstallError]
              | Except.ok _ => Ev.clearBusy :: pollTrace env
          else [Ev.alertDownloadFailed, Ev.clearBusy]

/-- The events of a run up to and including the completion of the
installer handoff, src/App.js lines 43-73. -/
def handoffDone (g : Game) : List Ev :=
  [Ev.callPermission, Ev.setBusy g.id, Ev.alertDownloading, Ev.callDownload,
   Ev.callHandoff, Ev.clearBusy]

/-- Events that can occur inside the polling ticks. -/
def pollSessionEv : Ev → Bool
  | Ev.callCheck _ => true
  | Ev.logCatch _ => true
  | Ev.clearIntervalEv => true
  | Ev.alertInstalled => true
  | Ev.callLaunch => true
  | _ => false

/-- Events of a polling session in which no tick detects the install:
only queries and caught-and-logged query faults. -/
def quietEv : Ev → Bool
  | Ev.callCheck _ => true
  | Ev.logCatch _ => true
  | _ => false

/-- A `clearInterval` call: either from a successful tick (line 81) or
from the 20-second deadline (line 92). -/
def isClearCall : Ev → Bool
  | Ev.clearIntervalEv => true
  | Ev.deadlineClear => true
  | _ => false

/-- User-facing notifications of a terminal outcome: the denied, failed,
installed, and could-not-install alerts. -/
def isTerminalAlert : Ev → Bool
  | Ev.alertPermissionDenied => true
  | Ev.alertDownloadFailed => true
  | Ev.alertInstalled => true
  | Ev.alertInstallError => true
  | _ => false

/-- Notifications of a `Failed` terminal outcome. -/
def failedAlert : Ev → Bool
  | Ev.alertPermissionDenied => true
  | Ev.alertDownloadFailed => true
  | Ev.alertInstallError => true
  | _ => false

/-- Effect of one event on the `downloadingGame` component state. -/
def busyStep (b : Option Nat) : Ev → Option Nat
  | Ev.setBusy i => some i
  | Ev.clearBusy => none
  | _ => b

/-- The value of `downloadingGame` after a run, starting from `null`. -/
def foldBusy (l : List Ev) : Option Nat :=
  l.foldl busyStep none

/-- Demonstration catalog item. -/
def gDemo : Game :=
  { id := 1, title := "Space Jump!", apkUrl := "https://example.com/a.apk",
    packageName := "com.example.spacejump" }

/-- Environment: happy path until polling, all install queries report not
installed, so the session runs into the 20-second deadline. -/
def envT : Env :=
  { osAndroid := false, osVersion := 30, permRequest := PermResult.granted,
    download := Except.ok 200, handoff := Except.ok (),
    check := fun _ => Except.ok false, launch := Except.ok () }

/-- Environment: the first install query already reports installed; the
subsequent auto-launch call rejects. -/
def envS1 : Env :=
  { osAndroid := false, osVersion := 30, permRequest := PermResult.granted,
    download := Except.ok 200, handoff := Except.ok (),
    check := fun _ => Except.ok true, launch := Except.error () }

/-- Environment: the first install query rejects, later ones report not
installed. -/
def envE : Env :=
  { osAndroid := false, osVersion := 30, permRequest := PermResult.granted,
    download := Except.ok 200, handoff := Except.ok (),
    check := fun k => if k = 1 then Except.error () else Except.ok false,
    launch := Except.ok () }

/-- Environment: the download resolves with status 200 but the installer
handoff call rejects. -/
def envC3 : Env :=
  { osAndroid := false, osVersion := 30, permRequest := PermResult.granted,
    download := Except.ok 200, handoff := Except.error (),
    check := fun _ => Except.ok false, launch := Except.ok () }

/-- Environment: Android below version 29, the user denies the storage
permission. -/
def envD : Env :=
  { osAndroid := true, osVersion := 28, permRequest := PermResult.denied,
    download := Except.ok 200, handoff := Except.ok (),
    check := fun _ => Except.ok false, launch := Except.ok () }

/-- Environment: Android below version 29, the system permission request
rejects. -/
def envR : Env :=
  { osAndroid := true, osVersion := 28, permRequest := PermResult.raise,
    download := Except.ok 200, handoff := Except.ok (),
    check := fun _ => Except.ok false, launch := Except.ok () }

/-- Phase of one in-flight `installGame` run, cut at the suspension
points of the source (the awaited external calls). -/
inductive RPhase where
  | awaitPerm
  | downloading
  | handingOff
  | polling
  | installed
  | timedOut
  | failedPerm
  | failedDownload
  | failedError
  deriving DecidableEq

/-- Phases in which the run has not reached a terminal outcome. -/
def RPhase.nonTerminal : RPhase → Bool
  | RPhase.awaitPerm => true
  | RPhase.downloading => true
  | RPhase.handingOff => true
  | RPhase.polling => true
  | _ => false

/-- Component state: `downloadingGame` (src/App.js line 20) plus the
in-flight runs, each an item identifier and a phase, in start order. -/
structure AppState where
  busy : Option Nat
  runs : List (Nat × RPhase)
  deriving DecidableEq

/-- Labels of the transitions: a press of the install button of an item,
or the resolution of the pending external call of the run at position k. -/
inductive Act where
  | press (i : Nat)
  | permGrant (k : Nat)
  | permDeny (k : Nat)
  | permRaise (k : Nat)
  | downloadOk (k : Nat)
  | downloadFail (k : Nat)
  | downloadRaise (k : Nat)
  | handoffOk (k : Nat)
  | handoffRaise (k : Nat)
  | pollInstalled (k : Nat)
  | pollTimeout (k : Nat)

/-- Small-step semantics of the component.  A press is possible exactly
when the button is enabled, src/App.js line 116:
`disabled={downloadingGame === item.id}`.  The state updates mirror the
`setDownloadingGame` calls of `installGame`: the identifier is stored
after the permission resolves with a grant (line 49), cleared when the
handoff completes (line 73), on a failed download (line 95), and in the
outer catch (line 99). -/
inductive Step : AppState → Act → AppState → Prop
  | press (s : AppState) (i : Nat) (h : s.busy ≠ some i) :
      Step s (Act.press i) ⟨s.busy, s.runs ++ [(i, RPhase.awaitPerm)]⟩
  | permGrant (s : AppState) (k i : Nat)
      (h : s.runs[k]? = some (i, RPhase.awaitPerm)) :
      Step s (Act.permGrant k) ⟨some i, s.runs.set k (i, RPhase.downloading)⟩
  | permDeny (s : AppState) (k i : Nat)
      (h : s.runs[k]? = some (i, RPhase.awaitPerm)) :
      Step s (Act.permDeny k) ⟨s.busy, s.runs.set k (i, RPhase.failedPerm)⟩
  | permRaise (s : AppState) (k i : Nat)
      (h : s.runs[k]? = some (i, RPhase.awaitPerm)) :
      Step s (Act.permRaise k) ⟨none, s.runs.set k (i, RPhase.failedError)⟩
  | downloadOk (s : AppState) (k i : Nat)
      (h : s.runs[k]? = some (i, RPhase.downloading)) :
      Step s (Act.downloadOk k) ⟨s.busy, s.runs.set k (i, RPhase.handingOff)⟩
  | downloadFail (s : AppState) (k i : Nat)
      (h : s.runs[k]? = some (i, RPhase.downloading)) :
      Step s (Act.downloadFail k) ⟨none, s.runs.set k (i, RPhase.failedDownload)⟩
  | downloadRaise (s : AppState) (k i : Nat)
      (h : s.runs[k]? = some (i, RPhase.downloading)) :
      Step s (Act.downloadRaise k) ⟨none, s.runs.set k (i, RPhase.failedError)⟩
  | handoffOk (s : AppState) (k i : Nat)
      (h : s.runs[k]? = some (i, RPhase.handingOff)) :
      Step s (Act.handoffOk k) ⟨none, s.runs.set k (i, RPhase.polling)⟩
  | handoffRaise (s : AppState) (k i : Nat)
      (h : s.runs[k]? = some (i, RPhase.handingOff)) :
      Step s (Act.handoffRaise k) ⟨none, s.runs.set k (i, RPhase.failedError)⟩
  | pollInstalled (s : AppState) (k i : Nat)
      (h : s.runs[k]? = some (i, RPhase.polling)) :
      Step s (Act.pollInstalled k) ⟨s.busy, s.runs.set k (i, RPhase.installed)⟩
  | pollTimeout (s : AppState) (k i : Nat)
      (h : s.runs[k]? = some (i, RPhase.polling)) :
      Step s (Act.pollTimeout k) ⟨s.busy, s.runs.set k (i, RPhase.timedOut)⟩

/-- States reachable from the initial component state. -/
inductive Reachable : AppState → Prop
  | init : Reachable ⟨none, []⟩
  | step {s : AppState} {a : Act} {t : AppState} :
      Reachable s → Step s a t → Reachable t

/-- A reachable state holding two runs of item 1 at once, one still
polling and one freshly started. -/
def sBad : AppState :=
  ⟨none, [(1, RPhase.polling), (1, RPhase.awaitPerm)]⟩

/-- Membership survives `dropWhile`. -/
theorem mem_of_mem_dropWhile {p : Char → Bool} {c : Char} :
    ∀ {l : List Char}, c ∈ l.dropWhile p → c ∈ l := by
  intro l
  induction l with
  | nil => intro h; simp at h
  | cons x xs ih =>
    intro h
    rw [List.dropWhile_cons] at h
    by_cases hp : p x
    · rw [if_pos hp] at h
      exact List.mem_cons_of_mem _ (ih h)
    · rw [if_neg hp] at h
      exact h

/-- Membership survives the modelled JavaScript trim. -/
theorem mem_of_mem_jsTrim {c : Char} {l : List Char} (h : c ∈ jsTrim l) :
    c ∈ l := by
  unfold jsTrim at h
  rw [List.mem_reverse] at h
  have h2 := mem_of_mem_dropWhile h
  rw [List.mem_reverse] at h2
  exact mem_of_mem_dropWhile h2

/-- C2 counterexample: the source replaces characters outside the class
with an underscore instead of stripping them, so the title
"Space Jump!" derives the file name Space_Jump_.apk, not the
SpaceJump.apk the claim states. -/
theorem destFileName_counterexample :
    destFileName "Space Jump!" ≠ "SpaceJump.apk" ∧
      destFileName "Space Jump!" = "Space_Jump_.apk" := by
  constructor
  · decide
  · decide

/-- C2 (amended): the derived destination file name replaces every
character outside the class with an underscore, trims, and appends the
fixed extension, so it consists of alphanumeric characters and
underscores plus the extension; it is deterministic in the title; the
title "Space Jump!" yields Space_Jump_.apk. -/
theorem destFileName_amended :
    (∀ title : String, ∃ s : String, destFileName title = s ++ ".apk" ∧
      ∀ c ∈ s.data, isAsciiAlnum c = true ∨ c = '_') ∧
    (∀ t1 t2 : String, t1 = t2 → destFileName t1 = destFileName t2) ∧
    destFileName "Space Jump!" = "Space_Jump_.apk" := by
  refine ⟨?_, ?_, by decide⟩
  · intro title
    refine ⟨String.mk (jsTrim (title.data.map replaceNonAlnum)), rfl, ?_⟩
    intro c hc
    have hm : c ∈ title.data.map replaceNonAlnum := mem_of_mem_jsTrim hc
    rcases List.mem_map.mp hm with ⟨a, _, ha⟩
    by_cases hA : isAsciiAlnum a
    · left
      rw [← ha]
      simp only [replaceNonAlnum, hA, if_true]
    · right
      rw [← ha]
      simp [replaceNonAlnum, hA]
  · intro t1 t2 h
    rw [h]

/-- Every title yields a name made of alphanumerics and underscores
before the extension (instance of the C2 theorem at one input). -/
theorem destFileName_amended_witness :
    ∃ s : String, destFileName "Hi there" = s ++ ".apk" ∧
      ∀ c ∈ s.data, isAsciiAlnum c = true ∨ c = '_' :=
  destFileName_amended.1 "Hi there"

/-- Every event of the polling ticks is a polling-session event. -/
theorem pollTicks_sessionEv (env : Env) :
    ∀ fuel k, ∀ e ∈ pollTicks env fuel k, pollSessionEv e = true := by
  intro fuel
  induction fuel with
  | zero => intro k e he; simp [pollTicks] at he
  | succ n ih =>
    intro k e he
    simp only [pollTicks] at he
    rcases List.mem_cons.mp he with rfl | he
    · rfl
    · rcases hc : env.check k with u | b
      · simp [tickTail, hc] at he
        rcases he with rfl | he
        · rfl
        · exact ih (k + 1) e he
      · cases b
        · simp [tickTail, hc] at he
          exact ih (k + 1) e he
        · simp [tickTail, hc] at he
          rcases he with rfl | rfl | rfl | he
          · rfl
          · rfl
          · rfl
          · rcases hl : env.launch with u | u
            · simp [launchTail, hl] at he
              subst he
              rfl
            · simp [launchTail, hl] at he

/-- If no tick inside the window detects the install, the polling ticks
consist only of queries and caught-and-logged query faults. -/
theorem pollTicks_quiet (env : Env) :
    ∀ fuel k, (∀ j, k ≤ j → j < k + fuel → env.check j ≠ Except.ok true) →
      ∀ e ∈ pollTicks env fuel k, quietEv e = true := by
  intro fuel
  induction fuel with
  | zero => intro k _ e he; simp [pollTicks] at he
  | succ n ih =>
    intro k hns e he
    simp only [pollTicks] at he
    rcases List.mem_cons.mp he with rfl | he
    · rfl
    · rcases hc : env.check k with u | b
      · simp [tickTail, hc] at he
        rcases he with rfl | he
        · rfl
        · exact ih (k + 1) (fun j h1 h2 => hns j (by omega) (by omega)) e he
      · cases b
        · simp [tickTail, hc] at he
          exact ih (k + 1) (fun j h1 h2 => hns j (by omega) (by omega)) e he
        · exact absurd hc (hns k (by omega) (by omega))

/-- The m-th query occurs whenever no earlier tick of the window detected
the install. -/
theorem pollTicks_mem_callCheck (env : Env) :
    ∀ fuel k m, k ≤ m → m < k + fuel →
      (∀ j, k ≤ j → j < m → env.check j ≠ Except.ok true) →
      Ev.callCheck m ∈ pollTicks env fuel k := by
  intro fuel
  induction fuel with
  | zero => intro k m h1 h2 _; omega
  | succ n ih =>
    intro k m h1 h2 hprev
    simp only [pollTicks]
    by_cases hkm : m = k
    · subst hkm
      exact List.mem_cons_self _ _
    · have hck : env.check k ≠ Except.ok true := hprev k le_rfl (by omega)
      apply List.mem_cons_of_mem
      rcases hc : env.check k with u | b
      · simp only [tickTail, hc]
        exact List.mem_cons_of_mem _
          (ih (k + 1) m (by omega) (by omega) (fun j ha hb => hprev j (by omega) hb))
      · cases b
        · simp only [tickTail, hc]
          exact ih (k + 1) m (by omega) (by omega) (fun j ha hb => hprev j (by omega) hb)
        · exact absurd hc hck

/-- A query fault at tick m is logged whenever no earlier tick detected
the install. -/
theorem pollTicks_mem_logCatch (env : Env) :
    ∀ fuel k m, k ≤ m → m < k + fuel →
      (∀ j, k ≤ j → j < m → env.check j ≠ Except.ok true) →
      env.check m = Except.error () →
      Ev.logCatch m ∈ pollTicks env fuel k := by
  intro fuel
  induction fuel with
  | zero => intro k m h1 h2 _ _; omega
  | succ n ih =>
    intro k m h1 h2 hprev hm
    simp only [pollTicks]
    by_cases hkm : m = k
    · subst hkm
      apply List.mem_cons_of_mem
      simp only [tickTail, hm]
      exact List.mem_cons_self _ _
    · have hck : env.check k ≠ Except.ok true := hprev k le_rfl (by omega)
      apply List.mem_cons_of_mem
      rcases hc : env.check k with u | b
      · simp only [tickTail, hc]
        exact List.mem_cons_of_mem _
          (ih (k + 1) m (by omega) (by omega) (fun j ha hb => hprev j (by omega) hb) hm)
      · cases b
        · simp only [tickTail, hc]
          exact ih (k + 1) m (by omega) (by omega)
            (fun j ha hb => hprev j (by omega) hb) hm
        · exact absurd hc hck

/-- Shape of the polling ticks when tick m is the first to detect the
install: quiet events, then the m-th query, the repeating-timer release,
the installed notification, the launch attempt, and the caught launch
fault if any. -/
theorem pollTicks_success (env : Env) :
    ∀ fuel k m, k ≤ m → m < k + fuel →
      (∀ j, k ≤ j → j < m → env.check j ≠ Except.ok true) →
      env.check m = Except.ok true →
      ∃ l1, pollTicks env fuel k =
          l1 ++ Ev.callCheck m :: Ev.clearIntervalEv :: Ev.alertInstalled ::
            Ev.callLaunch :: launchTail env m ∧
        ∀ e ∈ l1, quietEv e = true := by
  intro fuel
  induction fuel with
  | zero => intro k m h1 h2 _ _; omega
  | succ n ih =>
    intro k m h1 h2 hprev hm
    by_cases hkm : m = k
    · subst hkm
      refine ⟨[], ?_, by simp⟩
      simp only [pollTicks, tickTail, hm]
      simp
    · have hck : env.check k ≠ Except.ok true := hprev k le_rfl (by omega)
      rcases hc : env.check k with u | b
      · rcases ih (k + 1) m (by omega) (by omega)
          (fun j ha hb => hprev j (by omega) hb) hm with ⟨l1, heq, hq⟩
        refine ⟨Ev.callCheck k :: Ev.logCatch k :: l1, ?_, ?_⟩
        · simp only [pollTicks, tickTail, hc, heq]
          simp
        · intro e he
          rcases List.mem_cons.mp he with rfl | he
          · rfl
          · rcases List.mem_cons.mp he with rfl | he
            · rfl
            · exact hq e he
      · cases b
        · rcases ih (k + 1) m (by omega) (by omega)
            (fun j ha hb => hprev j (by omega) hb) hm with ⟨l1, heq, hq⟩
          refine ⟨Ev.callCheck k :: l1, ?_, ?_⟩
          · simp only [pollTicks, tickTail, hc, heq]
            simp
          · intro e he
            rcases List.mem_cons.mp he with rfl | he
            · rfl
            · exact hq e he
        · exact absurd hc hck

/-- Whenever the launch call occurs in the polling ticks, it is directly
preceded by the installed notification. -/
theorem pollTicks_launch_mem (env : Env) :
    ∀ fuel k, Ev.callLaunch ∈ pollTicks env fuel k →
      ∃ l1 l2, pollTicks env fuel k =
        l1 ++ Ev.alertInstalled :: Ev.callLaunch :: l2 := by
  intro fuel
  induction fuel with
  | zero => intro k h; simp [pollTicks] at h
  | succ n ih =>
    intro k h
    simp only [pollTicks] at h
    rcases List.mem_cons.mp h with heq | h
    · exact absurd heq (by simp)
    · rcases hc : env.check k with u | b
      · simp [tickTail, hc] at h
        rcases ih (k + 1) h with ⟨l1, l2, heq⟩
        refine ⟨Ev.callCheck k :: Ev.logCatch k :: l1, l2, ?_⟩
        simp only [pollTicks, tickTail, hc, heq]
        simp
      · cases b
        · simp [tickTail, hc] at h
          rcases ih (k + 1) h with ⟨l1, l2, heq⟩
          refine ⟨Ev.callCheck k :: l1, l2, ?_⟩
          simp only [pollTicks, tickTail, hc, heq]
          simp
        · refine ⟨[Ev.callCheck k, Ev.clearIntervalEv], launchTail env k, ?_⟩
          simp only [pollTicks, tickTail, hc]
          simp

/-- Every event of a polling session is a session event or the final
deadline release. -/
theorem pollTrace_mem (env : Env) {e : Ev} (he : e ∈ pollTrace env) :
    pollSessionEv e = true ∨ e = Ev.deadlineClear := by
  rw [pollTrace] at he
  rcases List.mem_append.mp he with h | h
  · exact Or.inl (pollTicks_sessionEv env 9 1 e h)
  · simp at h
    exact Or.inr h

/-- No polling session ever emits a Failed notification. -/
theorem pollTrace_countP_failed (env : Env) :
    (pollTrace env).countP failedAlert = 0 := by
  rw [List.countP_eq_zero]
  intro e he
  rcases pollTrace_mem env he with h | rfl
  · cases e <;> simp_all [pollSessionEv, failedAlert]
  · simp [failedAlert]

/-- On the path where the permission is granted, the download resolves
with status 200 and the handoff call resolves, a run is the handoff
phase followed by one polling session. -/
theorem installGame_poll (env : Env) (g : Game)
    (hp : (requestPermission env).1 = Except.ok true)
    (hd : env.download = Except.ok 200) (hh : env.handoff = Except.ok ()) :
    installGame env g = handoffDone g ++ pollTrace env := by
  simp [installGame, hp, hd, hh, handoffDone]

/-- A fold over events that neither set nor clear the busy indicator
leaves it unchanged. -/
theorem foldl_busyStep_neutral :
    ∀ {l : List Ev}, (∀ e ∈ l, ∀ b : Option Nat, busyStep b e = b) →
      ∀ b : Option Nat, l.foldl busyStep b = b := by
  intro l
  induction l with
  | nil => intro _ b; rfl
  | cons x xs ih =>
    intro h b
    rw [List.foldl_cons, h x (List.mem_cons_self _ _)]
    exact ih (fun e he b2 => h e (List.mem_cons_of_mem _ he) b2) b

/-- A polling session never touches the busy indicator. -/
theorem pollTrace_foldl_busy (env : Env) :
    ∀ b : Option Nat, (pollTrace env).foldl busyStep b = b := by
  intro b
  apply foldl_busyStep_neutral
  intro e he b2
  rcases pollTrace_mem env he with h | rfl
  · cases e <;> simp_all [pollSessionEv, busyStep]
  · rfl

/-- A list of quiet events contributes nothing to a count of events a
quiet event can never be. -/
theorem countP_eq_zero_of_quiet {l : List Ev} (hq : ∀ e ∈ l, quietEv e = true)
    {p : Ev → Bool} (hp : ∀ e, quietEv e = true → p e = false) :
    l.countP p = 0 := by
  rw [List.countP_eq_zero]
  intro e he
  simp [hp e (hq e he)]

/-- The caught launch fault contributes no release call. -/
theorem launchTail_countP_clear (env : Env) (m : Nat) :
    (launchTail env m).countP isClearCall = 0 := by
  rcases hl : env.launch with u | u <;>
    simp [launchTail, hl, isClearCall, List.countP_cons]

/-- In a session whose ticks never detect the install, exactly one
release call occurs (the deadline), no installed notification occurs,
and no terminal notification at all occurs. -/
theorem pollTrace_noSuccess (env : Env)
    (hns : ∀ j, 1 ≤ j → j ≤ 9 → env.check j ≠ Except.ok true) :
    (pollTrace env).countP isClearCall = 1 ∧
      Ev.alertInstalled ∉ pollTrace env ∧
      (pollTrace env).countP isTerminalAlert = 0 := by
  have hq : ∀ e ∈ pollTicks env 9 1, quietEv e = true :=
    pollTicks_quiet env 9 1 (fun j h1 h2 => hns j h1 (by omega))
  refine ⟨?_, ?_, ?_⟩
  · rw [pollTrace, List.countP_append]
    rw [countP_eq_zero_of_quiet hq
      (fun e h => by cases e <;> simp_all [quietEv, isClearCall])]
    simp [isClearCall, List.countP_cons]
  · intro hmem
    rcases pollTrace_mem env hmem with h | h
    · rw [pollTrace] at hmem
      rcases List.mem_append.mp hmem with h2 | h2
      · have := hq _ h2
        simp [quietEv] at this
      · simp at h2
    · simp at h
  · rw [pollTrace, List.countP_append]
    rw [countP_eq_zero_of_quiet hq
      (fun e h => by cases e <;> simp_all [quietEv, isTerminalAlert])]
    simp [isTerminalAlert, List.countP_cons]

/-- In a session whose tick m is the first to detect the install, the
repeating-timer release directly precedes the installed notification
with no earlier release, and the session performs two release calls in
total: the never-cancelled deadline timer fires afterwards and issues a
second one. -/
theorem pollTrace_success (env : Env) (m : Nat) (h1 : 1 ≤ m) (h9 : m ≤ 9)
    (hm : env.check m = Except.ok true)
    (hprev : ∀ j, 1 ≤ j → j < m → env.check j ≠ Except.ok true) :
    (∃ l1 l2, pollTrace env = l1 ++ Ev.clearIntervalEv :: Ev.alertInstalled :: l2 ∧
      l1.countP isClearCall = 0) ∧
      (pollTrace env).countP isClearCall = 2 := by
  rcases pollTicks_success env 9 1 m h1 (by omega) hprev hm with ⟨l1, heq, hq⟩
  have hl1 : l1.countP isClearCall = 0 :=
    countP_eq_zero_of_quiet hq
      (fun e h => by cases e <;> simp_all [quietEv, isClearCall])
  constructor
  · refine ⟨l1 ++ [Ev.callCheck m],
      Ev.callLaunch :: (launchTail env m ++ [Ev.deadlineClear]), ?_, ?_⟩
    · rw [pollTrace, heq]
      simp [List.append_assoc]
    · rw [List.countP_append, hl1]
      simp [isClearCall, List.countP_cons]
  · rw [pollTrace, heq, List.countP_append, List.countP_append, hl1]
    simp [isClearCall, List.countP_cons, launchTail_countP_clear]

/-- C3 counterexample: with the download resolving with status 200 and
the handoff call rejecting, the engine attempts the handoff and still
reaches a Failed outcome (the could-not-install alert), so the run does
reach Failed on a statusCode 200 run. -/
theorem downloadStatus_counterexample :
    envC3.download = Except.ok 200 ∧
      Ev.callHandoff ∈ installGame envC3 gDemo ∧
      Ev.alertInstallError ∈ installGame envC3 gDemo :=
  ⟨rfl, by decide, by decide⟩

/-- C3 (amended): when the transfer call resolves, the engine attempts
the installer handoff iff the status is 200; on status 200 it never
emits the download-failed notification, and when the handoff call also
resolves it never reaches any Failed outcome; on any other status it
emits the download-failed notification and never attempts the handoff. -/
theorem downloadStatus_amended (env : Env) (g : Game)
    (hp : (requestPermission env).1 = Except.ok true)
    (s : Nat) (hd : env.download = Except.ok s) :
    (Ev.callHandoff ∈ installGame env g ↔ s = 200) ∧
      (s ≠ 200 → Ev.alertDownloadFailed ∈ installGame env g) ∧
      (s = 200 → Ev.alertDownloadFailed ∉ installGame env g) ∧
      (s = 200 → env.handoff = Except.ok () →
        (installGame env g).countP failedAlert = 0) := by
  by_cases hs : s = 200
  · subst hs
    rcases hh : env.handoff with u | u
    · have htr : installGame env g =
          [Ev.callPermission, Ev.setBusy g.id, Ev.alertDownloading,
           Ev.callDownload, Ev.callHandoff, Ev.logError, Ev.clearBusy,
           Ev.alertInstallError] := by
        simp [installGame, hp, hd, hh]
      refine ⟨?_, fun h => absurd rfl h, fun _ => ?_, fun _ hh2 => ?_⟩
      · rw [htr]
        simp
      · rw [htr]
        simp
      · exact Except.noConfusion hh2
    · cases u
      have htr := installGame_poll env g hp hd hh
      refine ⟨?_, fun h => absurd rfl h, fun _ => ?_, fun _ _ => ?_⟩
      · rw [htr]
        simp [handoffDone]
      · rw [htr]
        intro hmem
        rcases List.mem_append.mp hmem with h | h
        · simp [handoffDone] at h
        · rcases pollTrace_mem env h with h2 | h2
          · simp [pollSessionEv] at h2
          · simp at h2
      · rw [htr, List.countP_append, pollTrace_countP_failed]
        simp [handoffDone, failedAlert, List.countP_cons]
  · have htr : installGame env g =
        [Ev.callPermission, Ev.setBusy g.id, Ev.alertDownloading,
         Ev.callDownload, Ev.alertDownloadFailed, Ev.clearBusy] := by
      simp [installGame, hp, hd, hs]
    refine ⟨⟨?_, fun h => absurd h hs⟩, fun _ => ?_, fun h => absurd h hs,
      fun h => absurd h hs⟩
    · intro h
      rw [htr] at h
      simp at h
    · rw [htr]
      simp

/-- The C3 theorem applied to a run with status 200, a resolving handoff
and an eventual timeout: the handoff is attempted and no Failed outcome
is emitted. -/
theorem downloadStatus_amended_witness :
    Ev.callHandoff ∈ installGame envT gDemo ∧
      (installGame envT gDemo).countP failedAlert = 0 :=
  ⟨(downloadStatus_amended envT gDemo rfl 200 rfl).1.mpr rfl,
   (downloadStatus_amended envT gDemo rfl 200 rfl).2.2.2 rfl rfl⟩

/-- C4: when the permission gate resolves with false, the run is exactly
the permission call followed by the single denied notification: exactly
one terminal notification is emitted and the transfer function is never
called. -/
theorem permissionDenied_run (env : Env) (g : Game)
    (h : (requestPermission env).1 = Except.ok false) :
    installGame env g = [Ev.callPermission, Ev.alertPermissionDenied] ∧
      (installGame env g).countP isTerminalAlert = 1 ∧
      Ev.callDownload ∉ installGame env g := by
  have htr : installGame env g = [Ev.callPermission, Ev.alertPermissionDenied] := by
    simp [installGame, h]
  refine ⟨htr, ?_, ?_⟩
  · rw [htr]
    decide
  · rw [htr]
    decide

/-- The C4 theorem applied to a denying environment. -/
theorem permissionDenied_run_witness :
    installGame envD gDemo = [Ev.callPermission, Ev.alertPermissionDenied] :=
  (permissionDenied_run envD gDemo rfl).1

/-- C5 counterexample: a run whose install queries never report
installed reaches the deadline, yet emits no user-facing terminal
notification at all — not the exactly one the claim states for the
timed-out terminal state. -/
theorem pollTimeout_counterexample :
    Ev.deadlineClear ∈ installGame envT gDemo ∧
      (installGame envT gDemo).countP isTerminalAlert = 0 := by
  constructor
  · decide
  · decide

/-- C5 (amended): when the install query never reports installed within
the nine ticks of the 20-second window, the run reaches the deadline
with no installed detection, the poll handle is released by exactly one
release call, the deadline release is the final event of the run (no
further queries occur), and no user-facing notification is emitted for
the timed-out state. -/
theorem pollTimeout_amended (env : Env) (g : Game)
    (hp : (requestPermission env).1 = Except.ok true)
    (hd : env.download = Except.ok 200) (hh : env.handoff = Except.ok ())
    (hns : ∀ j, 1 ≤ j → j ≤ 9 → env.check j ≠ Except.ok true) :
    Ev.deadlineClear ∈ installGame env g ∧
      Ev.alertInstalled ∉ installGame env g ∧
      (installGame env g).countP isClearCall = 1 ∧
      (installGame env g).getLast? = some Ev.deadlineClear ∧
      (installGame env g).countP isTerminalAlert = 0 := by
  have htr := installGame_poll env g hp hd hh
  rcases pollTrace_noSuccess env hns with ⟨hc1, hni, ht0⟩
  refine ⟨?_, ?_, ?_, ?_, ?_⟩
  · rw [htr, pollTrace]
    simp
  · rw [htr]
    intro hmem
    rcases List.mem_append.mp hmem with h | h
    · simp [handoffDone] at h
    · exact hni h
  · rw [htr, List.countP_append, hc1]
    simp [handoffDone, isClearCall, List.countP_cons]
  · rw [htr, pollTrace, ← List.append_assoc]
    exact List.getLast?_concat _
  · rw [htr, List.countP_append, ht0]
    simp [handoffDone, isTerminalAlert, List.countP_cons]

/-- The C5 theorem applied to a run whose queries all report not
installed. -/
theorem pollTimeout_amended_witness :
    (installGame envT gDemo).countP isClearCall = 1 ∧
      (installGame envT gDemo).getLast? = some Ev.deadlineClear := by
  have hns : ∀ j, 1 ≤ j → j ≤ 9 → envT.check j ≠ Except.ok true := by
    intro j _ _ h
    simp [envT] at h
  exact ⟨(pollTimeout_amended envT gDemo rfl rfl rfl hns).2.2.1,
    (pollTimeout_amended envT gDemo rfl rfl rfl hns).2.2.2.1⟩

/-- C6 counterexample: on a successful run (the first query already
reports installed) the run performs two release calls, not exactly one —
the deadline timer is never cancelled and clears the interval a second
time. -/
theorem pollHandle_counterexample :
    Ev.alertInstalled ∈ installGame envS1 gDemo ∧
      (installGame envS1 gDemo).countP isClearCall = 2 := by
  constructor
  · decide
  · decide

/-- C6 (amended): the deadline timer fires in every polling session; on
the deadline path exactly one release call occurs; on the success path
the repeating check timer is released directly before the installed
notification with no earlier release, but the never-cancelled deadline
timer later issues a second release call, for two in total. -/
theorem pollHandle_amended (env : Env) (g : Game)
    (hp : (requestPermission env).1 = Except.ok true)
    (hd : env.download = Except.ok 200) (hh : env.handoff = Except.ok ()) :
    Ev.deadlineClear ∈ installGame env g ∧
      ((∀ j, 1 ≤ j → j ≤ 9 → env.check j ≠ Except.ok true) →
        (installGame env g).countP isClearCall = 1) ∧
      (∀ m, 1 ≤ m → m ≤ 9 → env.check m = Except.ok true →
        (∀ j, 1 ≤ j → j < m → env.check j ≠ Except.ok true) →
        (∃ l1 l2, installGame env g =
            l1 ++ Ev.clearIntervalEv :: Ev.alertInstalled :: l2 ∧
          l1.countP isClearCall = 0) ∧
        (installGame env g).countP isClearCall = 2) := by
  have htr := installGame_poll env g hp hd hh
  have hhd : (handoffDone g).countP isClearCall = 0 := by
    simp [handoffDone, isClearCall, List.countP_cons]
  refine ⟨?_, ?_, ?_⟩
  · rw [htr, pollTrace]
    simp
  · intro hns
    rw [htr, List.countP_append, hhd, (pollTrace_noSuccess env hns).1]
  · intro m h1 h9 hm hprev
    rcases pollTrace_success env m h1 h9 hm hprev with ⟨⟨l1, l2, heq, hl1⟩, hc2⟩
    constructor
    · refine ⟨handoffDone g ++ l1, l2, ?_, ?_⟩
      · rw [htr, heq, List.append_assoc]
      · rw [List.countP_append, hhd, hl1]
    · rw [htr, List.countP_append, hhd, hc2]

/-- The C6 theorem applied to a run whose first query reports
installed: two release calls occur. -/
theorem pollHandle_amended_witness :
    (installGame envS1 gDemo).countP isClearCall = 2 ∧
      Ev.deadlineClear ∈ installGame envS1 gDemo := by
  have h := pollHandle_amended envS1 gDemo rfl rfl rfl
  refine ⟨(h.2.2 1 le_rfl (by omega) rfl ?_).2, h.1⟩
  intro j h1 h2
  exact absurd h2 (by omega)

/-- C7: a query fault at tick k is caught inside that tick and logged,
the run emits no Failed notification at all, and when a further tick
fits inside the window the next query still occurs — the fault neither
terminates the session nor escapes the engine. -/
theorem checkFault_tolerated (env : Env) (g : Game)
    (hp : (requestPermission env).1 = Except.ok true)
    (hd : env.download = Except.ok 200) (hh : env.handoff = Except.ok ())
    (k : Nat) (hk1 : 1 ≤ k) (hk9 : k ≤ 9)
    (he : env.check k = Except.error ())
    (hprev : ∀ j, 1 ≤ j → j < k → env.check j ≠ Except.ok true) :
    Ev.callCheck k ∈ installGame env g ∧
      Ev.logCatch k ∈ installGame env g ∧
      (installGame env g).countP failedAlert = 0 ∧
      (k < 9 → Ev.callCheck (k + 1) ∈ installGame env g) := by
  have htr := installGame_poll env g hp hd hh
  have hup : ∀ {e : Ev}, e ∈ pollTicks env 9 1 → e ∈ installGame env g := by
    intro e hmem
    rw [htr, pollTrace]
    exact List.mem_append_right _ (List.mem_append_left _ hmem)
  refine ⟨?_, ?_, ?_, ?_⟩
  · exact hup (pollTicks_mem_callCheck env 9 1 k hk1 (by omega) hprev)
  · exact hup (pollTicks_mem_logCatch env 9 1 k hk1 (by omega) hprev he)
  · rw [htr, List.countP_append, pollTrace_countP_failed]
    simp [handoffDone, failedAlert, List.countP_cons]
  · intro hk
    apply hup
    apply pollTicks_mem_callCheck env 9 1 (k + 1) (by omega) (by omega)
    intro j h1 h2
    by_cases hj : j < k
    · exact hprev j h1 hj
    · have hjk : j = k := by omega
      subst hjk
      rw [he]
      simp

/-- The C7 theorem applied to a run whose first query rejects: the fault
is logged and the second query still occurs. -/
theorem checkFault_tolerated_witness :
    Ev.logCatch 1 ∈ installGame envE gDemo ∧
      Ev.callCheck 2 ∈ installGame envE gDemo := by
  have hprev : ∀ j, 1 ≤ j → j < 1 → envE.check j ≠ Except.ok true := by
    intro j h1 h2
    exact absurd h2 (by omega)
  have h := checkFault_tolerated envE gDemo rfl rfl rfl 1 le_rfl (by omega) rfl hprev
  exact ⟨h.2.1, h.2.2.2 (by omega)⟩

/-- C8: whenever the launch call occurs in a run, it is directly
preceded by the installed notification (so it never occurs before the
installed state is reached and reported, and never on a path that does
not reach it), and such a run emits no Failed notification even when
the launch call rejects. -/
theorem launch_after_installed (env : Env) (g : Game)
    (h : Ev.callLaunch ∈ installGame env g) :
    (∃ l1 l2, installGame env g =
        l1 ++ Ev.alertInstalled :: Ev.callLaunch :: l2) ∧
      (installGame env g).countP failedAlert = 0 := by
  rcases hp : (requestPermission env).1 with u | b
  · simp [installGame, hp] at h
  · cases b
    · simp [installGame, hp] at h
    · rcases hd : env.download with u | s
      · simp [installGame, hp, hd] at h
      · by_cases hs : s = 200
        · subst hs
          rcases hh : env.handoff with u | u
          · simp [installGame, hp, hd, hh] at h
          · cases u
            have htr := installGame_poll env g hp hd hh
            rw [htr] at h
            have hpm : Ev.callLaunch ∈ pollTicks env 9 1 := by
              rcases List.mem_append.mp h with h2 | h2
              · simp [handoffDone] at h2
              · rw [pollTrace] at h2
                rcases List.mem_append.mp h2 with h3 | h3
                · exact h3
                · simp at h3
            rcases pollTicks_launch_mem env 9 1 hpm with ⟨l1, l2, heq⟩
            refine ⟨⟨handoffDone g ++ l1, l2 ++ [Ev.deadlineClear], ?_⟩, ?_⟩
            · rw [htr, pollTrace, heq]
              simp [List.append_assoc]
            · rw [htr, List.countP_append, pollTrace_countP_failed]
              simp [handoffDone, failedAlert, List.countP_cons]
        · simp [installGame, hp, hd, hs] at h

/-- The C8 theorem applied to a run that detects the install at once and
whose launch call rejects: the launch occurs and no Failed notification
is emitted. -/
theorem launch_after_installed_witness :
    Ev.callLaunch ∈ installGame envS1 gDemo ∧
      (installGame envS1 gDemo).countP failedAlert = 0 := by
  have hm : Ev.callLaunch ∈ installGame envS1 gDemo := by decide
  exact ⟨hm, (launch_after_installed envS1 gDemo hm).2⟩

/-- C9 counterexample: on Android below version 29, when the underlying
system permission request rejects, the permission gate itself rejects —
it does not surface the failure as false. -/
theorem permissionGate_counterexample :
    envR.osAndroid = true ∧ envR.osVersion < 29 ∧
      (requestPermission envR).1 = Except.error () :=
  ⟨rfl, by decide, rfl⟩

/-- C9 (amended): the permission gate rejects exactly when it is on
Android below version 29 and the underlying system request rejects; when
that request resolves, the gate resolves with the boolean comparison of
the result against the granted constant, so a failure to obtain the
permission surfaces as false, never as a raised error; and on platforms
where no consent is required (non-Android, or Android version at least
29) it resolves with true without invoking the system request. -/
theorem permissionGate_amended (env : Env) :
    ((requestPermission env).1 = Except.error () ↔
      env.osAndroid = true ∧ env.osVersion < 29 ∧
        env.permRequest = PermResult.raise) ∧
      (env.osAndroid = true → env.osVersion < 29 →
        env.permRequest ≠ PermResult.raise →
        (requestPermission env).1 =
          Except.ok (decide (env.permRequest = PermResult.granted))) ∧
      (env.osAndroid = true → env.osVersion < 29 →
        env.permRequest ≠ PermResult.raise →
        env.permRequest ≠ PermResult.granted →
        (requestPermission env).1 = Except.ok false) ∧
      (env.osAndroid = false ∨ 29 ≤ env.osVersion →
        requestPermission env = (Except.ok true, false)) := by
  cases ha : env.osAndroid
  · refine ⟨?_, ?_, ?_, ?_⟩
    · simp [requestPermission, ha]
    · intro hcon
      exact Bool.noConfusion hcon
    · intro hcon
      exact Bool.noConfusion hcon
    · intro _
      simp [requestPermission, ha]
  · by_cases hv : env.osVersion < 29
    · refine ⟨?_, ?_, ?_, ?_⟩
      · rcases hr : env.permRequest <;> simp [requestPermission, ha, hv, hr]
      · intro _ _ hnr
        rcases hr : env.permRequest with _ | _ | _ | _
        · simp [requestPermission, ha, hv, hr]
        · simp [requestPermission, ha, hv, hr]
        · simp [requestPermission, ha, hv, hr]
        · exact absurd hr hnr
      · intro _ _ hnr hng
        rcases hr : env.permRequest with _ | _ | _ | _
        · exact absurd hr hng
        · simp [requestPermission, ha, hv, hr]
        · simp [requestPermission, ha, hv, hr]
        · exact absurd hr hnr
      · rintro (hfalse | hge)
        · exact Bool.noConfusion hfalse
        · omega
    · refine ⟨?_, ?_, ?_, ?_⟩
      · simp [requestPermission, ha, hv]
      · intro _ h29
        exact absurd h29 hv
      · intro _ h29
        exact absurd h29 hv
      · intro _
        simp [requestPermission, ha, hv]

/-- The C9 theorem applied to a denying Android environment (the gate
resolves with false) and to a non-Android platform (the gate resolves
with true and no request is invoked). -/
theorem permissionGate_amended_witness :
    (requestPermission envD).1 = Except.ok false ∧
      requestPermission envT = (Except.ok true, false) :=
  ⟨(permissionGate_amended envD).2.2.1 rfl (by decide) (by decide) (by decide),
   (permissionGate_amended envT).2.2.2 (Or.inl rfl)⟩

/-- C10: after every run the busy indicator is clear — every path that
sets it also clears it — and on the path where the handoff call
resolves, the clear happens at handoff completion, before any polling
activity: the events up to the handoff end with the clear, contain no
install query, and everything after them is the polling session. -/
theorem busyIndicator_cleared (env : Env) (g : Game) :
    foldBusy (installGame env g) = none ∧
      ((requestPermission env).1 = Except.ok true →
        env.download = Except.ok 200 → env.handoff = Except.ok () →
        installGame env g = handoffDone g ++ pollTrace env ∧
          (handoffDone g).getLast? = some Ev.clearBusy ∧
          ∀ j, Ev.callCheck j ∉ handoffDone g) := by
  constructor
  · rcases hp : (requestPermission env).1 with u | b
    · simp [installGame, hp, foldBusy, busyStep, List.foldl_cons, List.foldl_nil]
    · cases b
      · simp [installGame, hp, foldBusy, busyStep, List.foldl_cons, List.foldl_nil]
      · rcases hd : env.download with u | s
        · simp [installGame, hp, hd, foldBusy, busyStep, List.foldl_cons,
            List.foldl_nil]
        · by_cases hs : s = 200
          · subst hs
            rcases hh : env.handoff with u | u
            · simp [installGame, hp, hd, hh, foldBusy, busyStep, List.foldl_cons,
                List.foldl_nil]
            · cases u
              rw [installGame_poll env g hp hd hh, foldBusy, List.foldl_append]
              have h1 : (handoffDone g).foldl busyStep none = none := by
                simp [handoffDone, busyStep, List.foldl_cons, List.foldl_nil]
              rw [h1]
              exact pollTrace_foldl_busy env none
          · simp [installGame, hp, hd, hs, foldBusy, busyStep, List.foldl_cons,
              List.foldl_nil]
  · intro hp hd hh
    refine ⟨installGame_poll env g hp hd hh, rfl, ?_⟩
    intro j
    simp [handoffDone]

/-- The C10 theorem applied to a run that reaches polling and times
out: the busy indicator ends clear and the clear precedes the session. -/
theorem busyIndicator_cleared_witness :
    foldBusy (installGame envT gDemo) = none ∧
      installGame envT gDemo = handoffDone gDemo ++ pollTrace envT :=
  ⟨(busyIndicator_cleared envT gDemo).1,
   ((busyIndicator_cleared envT gDemo).2 rfl rfl rfl).1⟩

/-- C1 counterexample: the state `sBad`, holding a run of item 1 still
polling and a second, freshly pressed run of item 1, is reachable: the
busy indicator is cleared when the handoff completes, so the install
button of item 1 is enabled again while the first run is still
non-terminal, and a second concurrent workflow for the same item
starts. -/
theorem installGuard_counterexample :
    Reachable sBad ∧
      sBad.runs.countP (fun r => decide (r.1 = 1) && r.2.nonTerminal) = 2 := by
  have h0 : Reachable ⟨none, []⟩ := Reachable.init
  have h1 : Reachable ⟨none, [(1, RPhase.awaitPerm)]⟩ :=
    Reachable.step h0 (Step.press _ 1 (by decide))
  have h2 : Reachable ⟨some 1, [(1, RPhase.downloading)]⟩ :=
    Reachable.step h1 (Step.permGrant _ 0 1 (by decide))
  have h3 : Reachable ⟨some 1, [(1, RPhase.handingOff)]⟩ :=
    Reachable.step h2 (Step.downloadOk _ 0 1 (by decide))
  have h4 : Reachable ⟨none, [(1, RPhase.polling)]⟩ :=
    Reachable.step h3 (Step.handoffOk _ 0 1 (by decide))
  have h5 : Reachable sBad :=
    Reachable.step h4 (Step.press _ 1 (by decide))
  exact ⟨h5, by decide⟩

/-- C1 (amended): pressing the install action of an item is possible
exactly when that item is not the currently tracked busy item
(`downloadingGame`); the guard rejects a press only during the window in
which the busy indicator holds that item, not for the whole non-terminal
lifetime of a prior run. -/
theorem installGuard_amended (s : AppState) (i : Nat) :
    (∃ t, Step s (Act.press i) t) ↔ s.busy ≠ some i := by
  constructor
  · rintro ⟨t, hstep⟩
    cases hstep
    assumption
  · intro h
    exact ⟨_, Step.press s i h⟩

/-- The C1 theorem applied to the initial state: a press of item 1 is
possible there. -/
theorem installGuard_amended_witness :
    ∃ t, Step ⟨none, []⟩ (Act.press 1) t :=
  (installGuard_amended ⟨none, []⟩ 1).mpr (by decide)

end Mindsprouts
